import Mathlib

/-!
# Verification of the drawable-canvas demo application (src/app.py)

Shallow embedding of the post-processing logic of the demo application:
* circle-center computation (`center_circle_app`),
* the color-to-label dictionary used by the color annotation page
  (`color_annotation_app`), modelled as an association list with the
  Python-dict invariant of no duplicate keys,
* the scratch-file sweep and button-id generation of `png_export`,
* the base64 encoding used for the inline download link of `png_export`,
* the path concatenation and straight-line arc length of
  `compute_arc_length`.

Numbers that are Python floats in the source (coordinates, angles,
timestamps) are embedded as rationals where only ordering and field
operations by rational constants occur, and as reals where trigonometry
or square roots occur.
-/

/-! ## Circle objects and center computation (`center_circle_app`) -/

/-- A circle drawing record as produced by the canvas component: the
fields of the Fabric.js object that `center_circle_app` reads. -/
structure CircleObj where
  left : ℝ
  top : ℝ
  radius : ℝ
  angle : ℝ

/-- `df["center_x"] = df["left"] + df["radius"] * np.cos(df["angle"] * np.pi / 180)`,
per row. -/
noncomputable def centerX (o : CircleObj) : ℝ :=
  o.left + o.radius * Real.cos (o.angle * Real.pi / 180)

/-- `df["center_y"] = df["top"] + df["radius"] * np.sin(df["angle"] * np.pi / 180)`,
per row. -/
noncomputable def centerY (o : CircleObj) : ℝ :=
  o.top + o.radius * Real.sin (o.angle * Real.pi / 180)

/-- The post-processing step of `center_circle_app`: `None` json data or an
empty object list short-circuits (the Python `return`); otherwise every row
gets its center coordinates. -/
noncomputable def centerCircleProcess (jsonData : Option (List CircleObj)) :
    Option (List (CircleObj × ℝ × ℝ)) :=
  match jsonData with
  | none => none
  | some objs =>
    if objs.length = 0 then none
    else some (objs.map fun o => (o, centerX o, centerY o))

/-! ## The color-to-label dictionary (`color_annotation_app`)

`st.session_state["color_to_label"]` is a Python dict from fill-color
strings to label strings.  We embed it as an association list whose
invariant (maintained by Python dicts) is that keys are not duplicated.
`d[k] = v` updates the value in place when the key is present (preserving
insertion order) and appends the pair otherwise. -/

/-- Python dict assignment `d[k] = v` on an association list. -/
def dictInsert (m : List (String × String)) (k v : String) :
    List (String × String) :=
  if (m.find? fun p => p.1 == k).isSome then
    m.map fun p => if p.1 == k then (p.1, v) else p
  else
    m ++ [(k, v)]

/-- Python dict lookup `d.get(k)`, also the semantics of
`df["fill"].map(d)` on one cell: `none` when the key is absent. -/
def dictLookup (m : List (String × String)) (k : String) : Option String :=
  (m.find? fun p => p.1 == k).map Prod.snd

/-- Number of entries of the association list carrying key `k`. -/
def countKey (m : List (String × String)) (k : String) : Nat :=
  (m.filter fun p => p.1 == k).length

/-- A rectangle record as read by `color_annotation_app`
(`df[["top", "left", "width", "height", "fill", "label"]]`). -/
structure AnnotObj where
  top : ℚ
  left : ℚ
  width : ℚ
  height : ℚ
  fill : String
deriving DecidableEq

/-- The post-processing step of `color_annotation_app`.  Inputs: the json
data, the current color-to-label dict, the picked color and the label text.
The fill color is the picked color with the alpha suffix `"77"` appended.
Returns the new dict together with the annotated table (`none` when the
step short-circuits before producing a table).  The dict is mutated only
after the emptiness check passes, matching the `return` placement. -/
def colorAnnotProcess (jsonData : Option (List AnnotObj))
    (m : List (String × String)) (pickedColor label : String) :
    List (String × String) × Option (List (AnnotObj × Option String)) :=
  match jsonData with
  | none => (m, none)
  | some objs =>
    if objs.length = 0 then (m, none)
    else
      (dictInsert m (pickedColor ++ "77") label,
       some (objs.map fun o =>
         (o, dictLookup (dictInsert m (pickedColor ++ "77") label) o.fill)))

/-! ## Scratch-file sweep (`png_export`)

The sweep iterates `Path("tmp/").glob("*.png")` and unlinks every matched
file whose mtime is below `now - N_HOURS_BEFORE_DELETION * 3600`.  We embed
the file system as a list of entries (directory, file name, mtime); the
glob matches exactly the entries of directory `tmp` whose name ends in
`.png`.  Timestamps are Python floats, embedded as rationals. -/

structure FileEntry where
  dir : String
  name : String
  mtime : ℚ
deriving DecidableEq

/-- Whether `Path("tmp/").glob("*.png")` yields this entry. -/
def matchesTmpPngGlob (f : FileEntry) : Bool :=
  f.dir == "tmp" && ".png".data.isSuffixOf f.name.data

/-- `N_HOURS_BEFORE_DELETION = 1` in `png_export`. -/
def N_HOURS_BEFORE_DELETION : ℚ := 1

/-- The sweep: a matched entry with
`mtime < now - N_HOURS_BEFORE_DELETION * 3600` is unlinked, every other
entry stays. -/
def sweepTmp (now : ℚ) (fs : List FileEntry) : List FileEntry :=
  fs.filter fun f =>
    !(matchesTmpPngGlob f && decide (f.mtime < now - N_HOURS_BEFORE_DELETION * 3600))

/-! ## Button-id generation (`png_export`) -/

/-- `str(uuid.uuid4()).replace("-", "")`: drop every dash. -/
def removeDashes (s : String) : String :=
  ⟨s.data.filter fun c => !(c == '-')⟩

/-- `re.sub("\d+", "", s)`: deleting every maximal digit run deletes
exactly the digit characters. -/
def stripDigits (s : String) : String :=
  ⟨s.data.filter fun c => !c.isDigit⟩

/-- One run of the button-id logic of `png_export`: when the stored id is
the empty string it is generated from the session's fresh uuid string,
otherwise the stored id is kept. -/
def pngExportButtonStep (buttonId uuidStr : String) : String :=
  if buttonId = "" then stripDigits (removeDashes uuidStr) else buttonId

/-- The f-string `file_path`: `"tmp/" + button_id + ".png"`. -/
def scratchFilePath (buttonId : String) : String :=
  "tmp/" ++ buttonId ++ ".png"

/-! ## Freehand paths and arc length (`compute_arc_length`)

A freehand object's `path` field is a list of SVG path segments, each a
list of elements that are either command letters (strings) or numeric
coordinates.  The code flattens them with the comprehension
`[str(e) for line in path for e in line]` and space-joins the result into
one path description string.  Coordinates in the canvas json are floats;
we embed them as rationals and keep command letters as strings, so an
element is a `PathToken`.  Python's decimal rendering `str(e)` is embedded
as the token's canonical string; no token's string contains a space, so
the space-joined string determines the token sequence. -/

inductive PathToken where
  | cmd (s : String)
  | num (q : ℚ)
deriving DecidableEq

/-- `str(e)` for one path element. -/
def tokenStr : PathToken → String
  | .cmd s => s
  | .num q => toString q

/-- `" ".join([str(e) for line in path for e in line])`: the comprehension
walks the segments in order and each segment's elements in order. -/
def joinedPathString (path : List (List PathToken)) : String :=
  String.intercalate " " ((path.map fun line => line.map tokenStr).flatten)

/-- Modelled from the spec: the external geometry library
(`svgpathtools.parse_path(...).length()`) is not part of this repository;
per the spec it computes the length of the described path, so for a
straight two-point path `M x0 y0 L x1 y1` it returns the Euclidean length
of the segment from `(x0, y0)` to `(x1, y1)`.  Only such two-point paths
are modelled; other token sequences map to `none`. -/
noncomputable def svgLinePathLength : List PathToken → Option ℝ
  | [.cmd "M", .num x0, .num y0, .cmd "L", .num x1, .num y1] =>
      some (Real.sqrt (((x1 : ℝ) - (x0 : ℝ)) ^ 2 + ((y1 : ℝ) - (y0 : ℝ)) ^ 2))
  | _ => none

/-- A freehand stroke record as read by `compute_arc_length`: only the
`path` column is used. -/
structure PathObj where
  path : List (List PathToken)

/-- `parse_path(" ".join(...)).length()` for one stroke: the token
sequence the joined string describes is the flattened segment list. -/
noncomputable def strokeArcLength (o : PathObj) : Option ℝ :=
  svgLinePathLength o.path.flatten

/-- The post-processing step of `compute_arc_length`: runs only when the
json data is present and the object list is nonempty, and then computes a
length per stroke. -/
noncomputable def computeArcLengthProcess (jsonData : Option (List PathObj)) :
    Option (List (Option ℝ)) :=
  match jsonData with
  | none => none
  | some objs =>
    if objs.length = 0 then none
    else some (objs.map strokeArcLength)

/-! ## Base64 encoding (`png_export`)

`b64 = base64.b64encode(img_data).decode()` (the `img_data.encode()`
attempt raises `AttributeError` on `bytes` and the `except` branch runs).
We embed bytes as naturals below 256 and implement standard base64 with
`=` padding, as `base64.b64encode` produces it. -/

/-- The base64 alphabet, index `n` holding the character of sextet `n`. -/
def b64Chars : List Char :=
  ['A', 'B', 'C', 'D', 'E', 'F', 'G', 'H', 'I', 'J', 'K', 'L', 'M',
   'N', 'O', 'P', 'Q', 'R', 'S', 'T', 'U', 'V', 'W', 'X', 'Y', 'Z',
   'a', 'b', 'c', 'd', 'e', 'f', 'g', 'h', 'i', 'j', 'k', 'l', 'm',
   'n', 'o', 'p', 'q', 'r', 's', 't', 'u', 'v', 'w', 'x', 'y', 'z',
   '0', '1', '2', '3', '4', '5', '6', '7', '8', '9', '+', '/']

/-- Character of a sextet value. -/
def sextetChar (n : Nat) : Char :=
  b64Chars.getD n 'A'

/-- Sextet value of a base64 character (`none` for characters outside the
alphabet, `=` included). -/
def charSextet (c : Char) : Option Nat :=
  b64Chars.findIdx? fun c2 => c2 == c

/-- Base64 encoding of a byte sequence, three bytes to four characters,
with `=` padding on a trailing group of one or two bytes. -/
def encodeB64 : List Nat → List Char
  | [] => []
  | [b1] =>
      [sextetChar (b1 / 4), sextetChar (b1 % 4 * 16), '=', '=']
  | [b1, b2] =>
      [sextetChar (b1 / 4), sextetChar (b1 % 4 * 16 + b2 / 16),
       sextetChar (b2 % 16 * 4), '=']
  | b1 :: b2 :: b3 :: rest =>
      sextetChar (b1 / 4) :: sextetChar (b1 % 4 * 16 + b2 / 16) ::
      sextetChar (b2 % 16 * 4 + b3 / 64) :: sextetChar (b3 % 64) ::
      encodeB64 rest

/-- Base64 decoding, the inverse direction: four characters back to three
bytes, with the two padded forms allowed only at the end. -/
def decodeB64 : List Char → Option (List Nat)
  | [] => some []
  | c1 :: c2 :: c3 :: c4 :: rest =>
    match charSextet c1, charSextet c2 with
    | some s1, some s2 =>
      if c3 = '=' then
        if c4 = '=' ∧ rest = [] then some [s1 * 4 + s2 / 16] else none
      else
        match charSextet c3 with
        | some s3 =>
          if c4 = '=' then
            if rest = [] then
              some [s1 * 4 + s2 / 16, s2 % 16 * 16 + s3 / 4]
            else none
          else
            match charSextet c4, decodeB64 rest with
            | some s4, some bs =>
                some ((s1 * 4 + s2 / 16) :: (s2 % 16 * 16 + s3 / 4) ::
                      (s3 % 4 * 64 + s4) :: bs)
            | _, _ => none
        | none => none
    | _, _ => none
  | _ => none

/-- The two artifacts `png_export` produces from the encoded PNG bytes of
the canvas image: `im.save(file_path, "PNG")` writes the bytes to the
scratch file, and the download link's href carries their base64 form
(PIL's PNG encoder is deterministic, so the buffer written to
`file_path` and the buffer passed to `b64encode` are the same byte
sequence). -/
structure PngExportResult where
  fileBytes : List Nat
  linkBase64 : List Char

/-- `png_export`'s handling of the encoded PNG byte sequence. -/
def pngExportEncode (pngBytes : List Nat) : PngExportResult :=
  ⟨pngBytes, encodeB64 pngBytes⟩

/-- The href of the constructed download link:
`"data:file/txt;base64," + b64`. -/
def dlLinkHref (r : PngExportResult) : String :=
  "data:file/txt;base64," ++ ⟨r.linkBase64⟩

/-! ## Helper lemmas -/

/-- Replacing the value of matching entries does not change which entries
match the key predicate. -/
theorem keyPred_comp (k v : String) :
    ((fun p : String × String => p.1 == k) ∘ fun p => if p.1 == k then (p.1, v) else p)
      = fun p : String × String => p.1 == k := by
  funext p
  by_cases hp : (p.1 == k) = true
  · simp only [Function.comp_apply, if_pos hp]
  · simp only [Function.comp_apply, if_neg hp]

/-- After `d[k] = v`, looking up `k` yields `v`. -/
theorem dictLookup_dictInsert (m : List (String × String)) (k v : String) :
    dictLookup (dictInsert m k v) k = some v := by
  unfold dictInsert dictLookup
  split
  · rename_i hsome
    rw [List.find?_map, keyPred_comp]
    obtain ⟨p0, hp0⟩ := Option.isSome_iff_exists.mp hsome
    have hk : p0.1 = k := by simpa using List.find?_some hp0
    rw [hp0]
    simp [hk]
  · rename_i hnone
    rw [List.find?_append]
    have hmn : (m.find? fun p => p.1 == k) = none := by
      cases h : m.find? fun p => p.1 == k
      · rfl
      · rw [h] at hnone; simp at hnone
    rw [hmn]
    simp [List.find?]

/-- `d[k] = v` leaves the number of entries for `k` unchanged when the key
is present and makes it one when it was absent. -/
theorem countKey_dictInsert (m : List (String × String)) (k v : String) :
    countKey (dictInsert m k v) k
      = if countKey m k = 0 then 1 else countKey m k := by
  unfold dictInsert countKey
  split
  · rename_i hsome
    rw [List.filter_map, keyPred_comp, List.length_map]
    obtain ⟨p0, hmem, hp⟩ := List.find?_isSome.mp hsome
    have hne : (m.filter fun p => p.1 == k).length ≠ 0 := by
      intro h0
      rw [List.length_eq_zero] at h0
      exact List.filter_eq_nil_iff.mp h0 p0 hmem hp
    rw [if_neg hne]
  · rename_i hnone
    have hmn : (m.find? fun p => p.1 == k) = none := by
      cases h : m.find? fun p => p.1 == k
      · rfl
      · rw [h] at hnone; simp at hnone
    have hm : m.filter (fun p => p.1 == k) = [] := by
      rw [List.filter_eq_nil_iff]
      exact List.find?_eq_none.mp hmn
    rw [List.filter_append, hm]
    simp

/-- The Python-dict invariant: with no duplicated keys, a key has at most
one entry. -/
theorem countKey_le_one (m : List (String × String)) (k : String)
    (h : (m.map Prod.fst).Nodup) : countKey m k ≤ 1 := by
  unfold countKey
  induction m with
  | nil => simp
  | cons p rest ih =>
    simp only [List.map_cons, List.nodup_cons] at h
    by_cases hp : (p.1 == k) = true
    · have hrest : rest.filter (fun q => q.1 == k) = [] := by
        rw [List.filter_eq_nil_iff]
        intro q hq hqk
        apply h.1
        rw [List.mem_map]
        refine ⟨q, hq, ?_⟩
        have h1 : q.1 = k := by simpa using hqk
        have h2 : p.1 = k := by simpa using hp
        rw [h1, h2]
      simp [List.filter_cons, hp, hrest]
    · simp only [List.filter_cons, hp]
      simp only [if_false, Bool.false_eq_true, reduceIte]
      exact ih h.2

/-- Base64 alphabet characters decode back to their index. -/
theorem charSextet_sextetChar : ∀ n : Nat, n < 64 →
    charSextet (sextetChar n) = some n := by
  decide

/-- No base64 alphabet character is the padding character. -/
theorem sextetChar_ne_pad : ∀ n : Nat, n < 64 → sextetChar n ≠ '=' := by
  decide

/-- Base64 decoding inverts base64 encoding on byte sequences. -/
theorem decodeB64_encodeB64 : ∀ bs : List Nat, (∀ b ∈ bs, b < 256) →
    decodeB64 (encodeB64 bs) = some bs
  | [], _ => rfl
  | [b1], h => by
      have hb1 : b1 < 256 := h b1 (by simp)
      have h1 : b1 / 4 < 64 := by omega
      have h2 : b1 % 4 * 16 < 64 := by omega
      simp only [encodeB64, decodeB64, charSextet_sextetChar _ h1,
        charSextet_sextetChar _ h2, and_self, if_true, reduceIte]
      simp only [Option.some.injEq, List.cons.injEq, and_true]
      omega
  | [b1, b2], h => by
      have hb1 : b1 < 256 := h b1 (by simp)
      have hb2 : b2 < 256 := h b2 (by simp)
      have h1 : b1 / 4 < 64 := by omega
      have h2 : b1 % 4 * 16 + b2 / 16 < 64 := by omega
      have h3 : b2 % 16 * 4 < 64 := by omega
      simp only [encodeB64, decodeB64, charSextet_sextetChar _ h1,
        charSextet_sextetChar _ h2, charSextet_sextetChar _ h3,
        if_neg (sextetChar_ne_pad _ h3), if_pos rfl, reduceIte]
      simp only [Option.some.injEq, List.cons.injEq, and_true]
      omega
  | b1 :: b2 :: b3 :: rest, h => by
      have hb1 : b1 < 256 := h b1 (by simp)
      have hb2 : b2 < 256 := h b2 (by simp)
      have hb3 : b3 < 256 := h b3 (by simp)
      have hrest : ∀ b ∈ rest, b < 256 := fun b hb => h b (by simp [hb])
      have ih := decodeB64_encodeB64 rest hrest
      have h1 : b1 / 4 < 64 := by omega
      have h2 : b1 % 4 * 16 + b2 / 16 < 64 := by omega
      have h3 : b2 % 16 * 4 + b3 / 64 < 64 := by omega
      have h4 : b3 % 64 < 64 := by omega
      simp only [encodeB64, decodeB64, charSextet_sextetChar _ h1,
        charSextet_sextetChar _ h2, charSextet_sextetChar _ h3,
        charSextet_sextetChar _ h4, if_neg (sextetChar_ne_pad _ h3),
        if_neg (sextetChar_ne_pad _ h4), ih]
      simp only [Option.some.injEq, List.cons.injEq, and_true]
      omega



/-! ## Claim theorems -/

/-- C1: For every circle drawing record with fields left, top, radius and
angle (degrees), the center computation of `center_circle_app` returns
`center_x = left + radius * cos(angle * pi / 180)` and
`center_y = top + radius * sin(angle * pi / 180)`; in particular, for
`angle = 0` it returns `center_x = left + radius` and `center_y = top`. -/
theorem center_circle_center_formula (o : CircleObj) :
    centerX o = o.left + o.radius * Real.cos (o.angle * Real.pi / 180) ∧
    centerY o = o.top + o.radius * Real.sin (o.angle * Real.pi / 180) ∧
    (o.angle = 0 → centerX o = o.left + o.radius ∧ centerY o = o.top) := by
  refine ⟨rfl, rfl, fun h => ⟨?_, ?_⟩⟩
  · rw [centerX, h]
    simp
  · rw [centerY, h]
    simp

/-- Witness for C1 at the concrete circle `left = 5`, `top = 7`,
`radius = 2`, `angle = 0`. -/
theorem center_circle_center_formula_witness :
    centerX ⟨5, 7, 2, 0⟩ = 5 + 2 ∧ centerY ⟨5, 7, 2, 0⟩ = 7 :=
  (center_circle_center_formula ⟨5, 7, 2, 0⟩).2.2 rfl

/-- C2: For every color string and any two labels recorded for it in
sequence, the second assignment to `st.session_state["color_to_label"]`
overwrites the first: afterwards the dict maps the color to the second
label and holds exactly one entry for that color.  The hypothesis is the
Python-dict invariant that keys are not duplicated. -/
theorem color_to_label_overwrite (m : List (String × String)) (c l1 l2 : String)
    (h : (m.map Prod.fst).Nodup) :
    dictLookup (dictInsert (dictInsert m c l1) c l2) c = some l2 ∧
    countKey (dictInsert (dictInsert m c l1) c l2) c = 1 := by
  refine ⟨dictLookup_dictInsert _ _ _, ?_⟩
  have hle := countKey_le_one m c h
  have h1 : countKey (dictInsert m c l1) c = 1 := by
    rw [countKey_dictInsert]
    split <;> omega
  rw [countKey_dictInsert, h1]
  simp

/-- Witness for C2: starting from a one-entry dict, recording `"cat"` and
then `"dog"` for the same color leaves a single entry holding `"dog"`. -/
theorem color_to_label_overwrite_witness :
    ((([("#FF000077", "car")] : List (String × String)).map Prod.fst).Nodup) ∧
    dictLookup (dictInsert (dictInsert [("#FF000077", "car")] "#EA101077" "cat")
      "#EA101077" "dog") "#EA101077" = some "dog" ∧
    countKey (dictInsert (dictInsert [("#FF000077", "car")] "#EA101077" "cat")
      "#EA101077" "dog") "#EA101077" = 1 :=
  ⟨by decide, color_to_label_overwrite _ _ _ _ (by decide)⟩

/-- C3: The sweep run before each PNG export deletes every scratch file
(an entry the glob matches) whose mtime is older than `now - 3600`
seconds, and retains every scratch file whose mtime is newer than that
threshold. -/
theorem sweep_deletes_old_retains_new (now : ℚ) (fs : List FileEntry)
    (f : FileEntry) (hmem : f ∈ fs) (hmatch : matchesTmpPngGlob f = true) :
    (f.mtime < now - 3600 → f ∉ sweepTmp now fs) ∧
    (now - 3600 < f.mtime → f ∈ sweepTmp now fs) := by
  have hthr : now - N_HOURS_BEFORE_DELETION * 3600 = now - 3600 := by
    norm_num [N_HOURS_BEFORE_DELETION]
  constructor
  · intro hold hmem'
    rw [sweepTmp, List.mem_filter, hthr, hmatch] at hmem'
    simp [hold] at hmem'
  · intro hnew
    rw [sweepTmp, List.mem_filter, hthr]
    refine ⟨hmem, ?_⟩
    rw [hmatch]
    simp only [Bool.true_and, Bool.not_eq_true', decide_eq_false_iff_not]
    exact not_lt.mpr (le_of_lt hnew)

/-- Witness for C3: at `now = 10000` the sweep drops a matched file of
mtime `0` and keeps a matched file of mtime `9999`. -/
theorem sweep_deletes_old_retains_new_witness :
    (⟨"tmp", "old.png", 0⟩ : FileEntry)
      ∉ sweepTmp 10000 [⟨"tmp", "old.png", 0⟩, ⟨"tmp", "new.png", 9999⟩] ∧
    (⟨"tmp", "new.png", 9999⟩ : FileEntry)
      ∈ sweepTmp 10000 [⟨"tmp", "old.png", 0⟩, ⟨"tmp", "new.png", 9999⟩] :=
  ⟨(sweep_deletes_old_retains_new 10000 _ _ (by decide) (by decide)).1
     (by show (0 : ℚ) < 10000 - 3600; norm_num),
   (sweep_deletes_old_retains_new 10000 _ _ (by decide) (by decide)).2
     (by show (10000 : ℚ) - 3600 < 9999; norm_num)⟩

/-- C4: After recording the current label for the selected fill color,
every object of the table whose fill color is present in the color-to-label
dict is annotated with that color's label (`label = mapping[fill]`), not
only the newest object: the produced table pairs each object with the
lookup of its own fill. -/
theorem annot_labels_all_matching_objects (objs : List AnnotObj)
    (m : List (String × String)) (pc lbl : String) (hne : objs.length ≠ 0) :
    (colorAnnotProcess (some objs) m pc lbl).2
      = some (objs.map fun o => (o, dictLookup (dictInsert m (pc ++ "77") lbl) o.fill)) ∧
    ∀ o ∈ objs, (o, dictLookup (dictInsert m (pc ++ "77") lbl) o.fill)
      ∈ ((colorAnnotProcess (some objs) m pc lbl).2.getD []) := by
  constructor
  · simp [colorAnnotProcess, hne]
  · intro o ho
    simp only [colorAnnotProcess, if_neg hne, Option.getD_some]
    rw [List.mem_map]
    exact ⟨o, ho, rfl⟩

/-- Witness for C4: with two drawn rectangles, the older one (whose fill
was recorded in an earlier run) is also annotated, not only the newest. -/
theorem annot_labels_all_matching_objects_witness :
    (([(⟨0, 0, 1, 1, "#EA101077"⟩ : AnnotObj), ⟨1, 1, 2, 2, "#00FF0077"⟩]).length ≠ 0) ∧
    ((⟨1, 1, 2, 2, "#00FF0077"⟩ : AnnotObj),
        dictLookup (dictInsert [("#00FF0077", "car")] ("#EA1010" ++ "77") "cat") "#00FF0077")
      ∈ ((colorAnnotProcess (some [⟨0, 0, 1, 1, "#EA101077"⟩, ⟨1, 1, 2, 2, "#00FF0077"⟩])
          [("#00FF0077", "car")] "#EA1010" "cat").2.getD []) :=
  ⟨by decide,
   (annot_labels_all_matching_objects _ _ _ _ (by decide)).2 _ (by decide)⟩

/-- C5: For every page routine that post-processes the canvas json result,
an empty object list short-circuits: the routine returns no derived values
(no centers, no table, no arc lengths) and no error; in the embedding the
result is `none` and, for the annotating page, the dict is returned
untouched. -/
theorem empty_object_list_short_circuits :
    centerCircleProcess (some []) = none ∧
    (∀ m pc lbl, colorAnnotProcess (some []) m pc lbl = (m, none)) ∧
    computeArcLengthProcess (some []) = none :=
  ⟨rfl, fun _ _ _ => rfl, rfl⟩

/-- C6: The arc-length page space-joins the stroke's path elements, walked
segment by segment, into one path description string, and the computed
length of a straight two-point path equals its Euclidean length (the
distance between its endpoints in the plane, embedded as `ℂ`). -/
theorem arc_length_straight_two_point (x0 y0 x1 y1 : ℚ) :
    (∀ path : List (List PathToken),
      joinedPathString path = String.intercalate " " (path.flatten.map tokenStr)) ∧
    strokeArcLength ⟨[[.cmd "M", .num x0, .num y0], [.cmd "L", .num x1, .num y1]]⟩
      = some (dist (⟨(x0 : ℝ), (y0 : ℝ)⟩ : ℂ) (⟨(x1 : ℝ), (y1 : ℝ)⟩ : ℂ)) := by
  constructor
  · intro path
    rw [joinedPathString, List.map_flatten]
  · rw [strokeArcLength]
    show svgLinePathLength [.cmd "M", .num x0, .num y0, .cmd "L", .num x1, .num y1] = _
    rw [svgLinePathLength, Complex.dist_eq_re_im]
    norm_num
    congr 1
    ring

/-- C7: The PNG export writes the encoded pixel buffer to the scratch file
and embeds in the download link a base64 string that decodes to exactly
the byte sequence written to the file. -/
theorem png_export_base64_roundtrip (pngBytes : List Nat)
    (h : ∀ b ∈ pngBytes, b < 256) :
    decodeB64 (pngExportEncode pngBytes).linkBase64
      = some (pngExportEncode pngBytes).fileBytes ∧
    dlLinkHref (pngExportEncode pngBytes)
      = "data:file/txt;base64," ++ ⟨encodeB64 pngBytes⟩ :=
  ⟨decodeB64_encodeB64 _ h, rfl⟩

/-- Witness for C7 on the eight PNG signature bytes. -/
theorem png_export_base64_roundtrip_witness :
    (∀ b ∈ [137, 80, 78, 71, 13, 10, 26, 10], b < 256) ∧
    decodeB64 (pngExportEncode [137, 80, 78, 71, 13, 10, 26, 10]).linkBase64
      = some (pngExportEncode [137, 80, 78, 71, 13, 10, 26, 10]).fileBytes :=
  ⟨by decide, (png_export_base64_roundtrip _ (by decide)).1⟩

/-- C8 counterexample: the claim that the button identifier is generated
exactly once and every export of the session writes to the same scratch
path fails when the uuid draw contains only digit characters (a possible
version-4 uuid: version nibble `4`, variant nibble `8`).  Stripping the
digits then yields the empty string, the stored identifier stays empty,
and the next run generates again, changing the scratch path. -/
theorem button_id_once_counterexample :
    pngExportButtonStep "" "00000000-0000-4000-8000-000000000000" = "" ∧
    pngExportButtonStep
        (pngExportButtonStep "" "00000000-0000-4000-8000-000000000000")
        "abcdefab-cdef-4abc-8abc-deffedcbaabc"
      ≠ pngExportButtonStep "" "00000000-0000-4000-8000-000000000000" ∧
    scratchFilePath
        (pngExportButtonStep
          (pngExportButtonStep "" "00000000-0000-4000-8000-000000000000")
          "abcdefab-cdef-4abc-8abc-deffedcbaabc")
      ≠ scratchFilePath (pngExportButtonStep "" "00000000-0000-4000-8000-000000000000") := by
  decide

/-- C8 amended: a run of `png_export` generates the identifier only when
the stored identifier is the empty string, the generated identifier holds
no digit character, and once the stored identifier is nonempty it is never
changed, so every later export writes to the unchanged scratch path
`tmp/<button_id>.png`; but a generation whose uuid draw is all digits
leaves the identifier empty and a later run generates again. -/
theorem button_id_generation_amended (s u : String) :
    (∀ c ∈ (pngExportButtonStep "" u).data, ¬ c.isDigit) ∧
    (s ≠ "" → pngExportButtonStep s u = s ∧
      scratchFilePath (pngExportButtonStep s u) = scratchFilePath s) := by
  constructor
  · intro c hc
    rw [pngExportButtonStep, if_pos rfl, stripDigits] at hc
    have hc2 : c ∈ (removeDashes u).data.filter fun c => !c.isDigit := hc
    rw [List.mem_filter] at hc2
    simpa using hc2.2
  · intro hs
    rw [pngExportButtonStep, if_neg hs]
    exact ⟨rfl, rfl⟩

/-- Witness for C8 amended at a stored identifier `"ab"` and uuid draw
`"x1-y2"`. -/
theorem button_id_generation_amended_witness :
    ("ab" : String) ≠ "" ∧ pngExportButtonStep "ab" "x1-y2" = "ab" ∧
    scratchFilePath (pngExportButtonStep "ab" "x1-y2") = scratchFilePath "ab" :=
  ⟨by decide, (button_id_generation_amended "ab" "x1-y2").2 (by decide)⟩

/-- C9: The sweep only considers entries the glob `tmp/*.png` matches:
an entry with a different extension or outside `tmp` stays in the file
system regardless of its mtime, and the sweep only ever removes entries
(its result is a sublist of the input). -/
theorem sweep_touches_only_tmp_png (now : ℚ) (fs : List FileEntry)
    (f : FileEntry) (hmem : f ∈ fs) (hno : matchesTmpPngGlob f = false) :
    f ∈ sweepTmp now fs ∧ (sweepTmp now fs).Sublist fs := by
  refine ⟨?_, List.filter_sublist _⟩
  rw [sweepTmp, List.mem_filter]
  refine ⟨hmem, ?_⟩
  rw [hno]
  simp

/-- Witness for C9: an hour-old `.txt` file in `tmp` and an hour-old
`.png` file outside `tmp` both survive a sweep at `now = 10000`. -/
theorem sweep_touches_only_tmp_png_witness :
    (⟨"tmp", "keep.txt", 0⟩ : FileEntry)
      ∈ sweepTmp 10000 [⟨"tmp", "keep.txt", 0⟩, ⟨"home", "pic.png", 0⟩] ∧
    (⟨"home", "pic.png", 0⟩ : FileEntry)
      ∈ sweepTmp 10000 [⟨"tmp", "keep.txt", 0⟩, ⟨"home", "pic.png", 0⟩] :=
  ⟨(sweep_touches_only_tmp_png 10000 _ _ (by decide) (by decide)).1,
   (sweep_touches_only_tmp_png 10000 _ _ (by decide) (by decide)).1⟩

/-- C10: With an empty object list the annotating page leaves the
color-to-label dict unchanged whatever color and label are currently
selected, and likewise when no json data is present: the dict is mutated
only after the non-empty check passes. -/
theorem empty_object_list_keeps_mapping :
    ∀ (m : List (String × String)) (pc lbl : String),
      (colorAnnotProcess (some []) m pc lbl).1 = m ∧
      (colorAnnotProcess none m pc lbl).1 = m :=
  fun _ _ _ => ⟨rfl, rfl⟩
